import Mathlib

/-!
Shallow embedding of the core logic of the event-ingestion service
(repository GCUGrayArea/dwarfen-mohawk):

* src/src/utils/deduplication.py  — DeduplicationCache
* src/src/middleware/rate_limit.py — RateLimiter
* src/src/services/event_service.py — EventService (ingest, list_inbox, mark_delivered)
* src/src/repositories/event_repository.py — EventRepository (mark_delivered, create)

Time instants are modelled as rationals (clock injection); the external
DynamoDB store is modelled from the spec as a key-value store.
-/

/-- JSON values as handled by the Python code (payloads are JSON objects;
numbers restricted to integers, which is all the repository's code and tests
use). Objects are ordered key-value lists, mirroring Python dicts. -/
inductive JsonValue where
  | null : JsonValue
  | bool : Bool → JsonValue
  | num : Int → JsonValue
  | str : String → JsonValue
  | arr : List JsonValue → JsonValue
  | obj : List (String × JsonValue) → JsonValue

/-- Lowercase hex digit, as used by Python json escape sequences. -/
def hexDigit (n : Nat) : Char :=
  if n < 10 then Char.ofNat (48 + n) else Char.ofNat (87 + n)

/-- Four-digit lowercase hex rendering of a code point (for the json escape). -/
def hex4 (n : Nat) : String :=
  String.mk [hexDigit (n / 4096 % 16), hexDigit (n / 256 % 16),
    hexDigit (n / 16 % 16), hexDigit (n % 16)]

/-- Escaping of a single character inside a JSON string literal, following
Python json.dumps (backslash, quote, short escapes, and control characters
as a hex escape; escaping of non-ASCII characters is not modelled since no
claim depends on it). -/
def escapeChar (c : Char) : String :=
  if c = '\\' then "\\\\"
  else if c = '"' then "\\\""
  else if c = '\n' then "\\n"
  else if c = '\t' then "\\t"
  else if c = '\r' then "\\r"
  else if c.toNat = 8 then "\\b"
  else if c.toNat = 12 then "\\f"
  else if c.toNat < 32 then "\\u" ++ hex4 c.toNat
  else String.singleton c

/-- JSON string literal rendering. -/
def strLit (s : String) : String :=
  "\"" ++ String.join (s.data.map escapeChar) ++ "\""

/-- Key ordering used by sort_keys=True: compare object keys only. -/
def keyLE (a b : String × String) : Prop := a.1 ≤ b.1

instance : DecidableRel keyLE := fun a b => inferInstanceAs (Decidable (a.1 ≤ b.1))

instance : IsTotal (String × String) keyLE := ⟨fun a b => le_total a.1 b.1⟩

instance : IsTrans (String × String) keyLE := ⟨fun _ _ _ h₁ h₂ => le_trans h₁ h₂⟩

/-- Render one already-serialized key/value pair, with the default
separator ": " of json.dumps. -/
def renderPair (q : String × String) : String := strLit q.1 ++ ": " ++ q.2

/-- Item separator of json.dumps (default separators). -/
def commaSep (l : List String) : String := String.intercalate ", " l

/- Serialization equivalent to Python json.dumps(v, sort_keys=True):
object keys are sorted recursively at every nesting depth.  (Keys are sorted
on the rendered key/value pairs; since the comparison reads only the key,
this coincides with sorting the items first and then rendering each one.) -/
mutual
def dumps : JsonValue → String
  | .null => "null"
  | .bool b => if b then "true" else "false"
  | .num n => toString n
  | .str s => strLit s
  | .arr xs => "[" ++ commaSep (dumpsList xs) ++ "]"
  | .obj kvs =>
      "\x7b" ++ commaSep ((List.insertionSort keyLE (dumpsKVs kvs)).map renderPair) ++ "\x7d"
def dumpsList : List JsonValue → List String
  | [] => []
  | x :: xs => dumps x :: dumpsList xs
def dumpsKVs : List (String × JsonValue) → List (String × String)
  | [] => []
  | (k, v) :: t => (k, dumps v) :: dumpsKVs t
end

/- Well-formedness of a JSON value as produced from a Python dict: object
keys are pairwise distinct at every nesting depth. -/
mutual
def jsonWF : JsonValue → Bool
  | .null => true
  | .bool _ => true
  | .num _ => true
  | .str _ => true
  | .arr xs => jsonWFList xs
  | .obj kvs => decide ((kvs.map Prod.fst).Nodup) && jsonWFKVs kvs
def jsonWFList : List JsonValue → Bool
  | [] => true
  | x :: xs => jsonWF x && jsonWFList xs
def jsonWFKVs : List (String × JsonValue) → Bool
  | [] => true
  | (_, v) :: t => jsonWF v && jsonWFKVs t
end

/- Equality of JSON values up to permutation of object key order at any
nesting depth ("equal as JSON objects"). -/
mutual
inductive PermEq : JsonValue → JsonValue → Prop where
  | nullEq : PermEq .null .null
  | boolEq (b : Bool) : PermEq (.bool b) (.bool b)
  | numEq (n : Int) : PermEq (.num n) (.num n)
  | strEq (s : String) : PermEq (.str s) (.str s)
  | arrEq {xs ys : List JsonValue} : PermEqList xs ys → PermEq (.arr xs) (.arr ys)
  | objEq {kvs kvs₁ kvs₂ : List (String × JsonValue)} :
      PermEqKVs kvs kvs₁ → kvs₁.Perm kvs₂ → PermEq (.obj kvs) (.obj kvs₂)
inductive PermEqList : List JsonValue → List JsonValue → Prop where
  | nil : PermEqList [] []
  | cons {x y : JsonValue} {xs ys : List JsonValue} :
      PermEq x y → PermEqList xs ys → PermEqList (x :: xs) (y :: ys)
inductive PermEqKVs : List (String × JsonValue) → List (String × JsonValue) → Prop where
  | nil : PermEqKVs [] []
  | cons {k : String} {v w : JsonValue} {t t₁ : List (String × JsonValue)} :
      PermEq v w → PermEqKVs t t₁ → PermEqKVs ((k, v) :: t) ((k, w) :: t₁)
end

theorem dumpsKVs_eq_map (l : List (String × JsonValue)) :
    dumpsKVs l = l.map (fun p => (p.1, dumps p.2)) := by
  induction l with
  | nil => simp [dumpsKVs]
  | cons p t ih => cases p with | mk k v => simp [dumpsKVs, ih]

theorem eq_of_perm_of_sorted_nodupKeys :
    ∀ {l₁ l₂ : List (String × String)}, l₁.Perm l₂ → l₁.Sorted keyLE → l₂.Sorted keyLE →
      (l₁.map Prod.fst).Nodup → l₁ = l₂ := by
  intro l₁
  induction l₁ with
  | nil =>
    intro l₂ hp _ _ _
    exact hp.nil_eq
  | cons a t ih =>
    intro l₂ hp hs₁ hs₂ hnd
    cases l₂ with
    | nil => exact absurd hp.symm.nil_eq (by simp)
    | cons b t₂ =>
      have hab : a = b := by
        have ha : a ∈ b :: t₂ := hp.mem_iff.mp (List.mem_cons_self a t)
        have hb : b ∈ a :: t := hp.symm.mem_iff.mp (List.mem_cons_self b t₂)
        rcases List.mem_cons.mp ha with h | ha₂
        · exact h
        · rcases List.mem_cons.mp hb with h | hb₂
          · exact h.symm
          · exfalso
            have h₁ : a.1 ≤ b.1 := (List.sorted_cons.mp hs₁).1 b hb₂
            have h₂ : b.1 ≤ a.1 := (List.sorted_cons.mp hs₂).1 a ha₂
            have hk : a.1 = b.1 := le_antisymm h₁ h₂
            have hmem : a.1 ∈ t.map Prod.fst := by
              rw [hk]
              exact List.mem_map_of_mem Prod.fst hb₂
            rw [List.map_cons] at hnd
            exact (List.nodup_cons.mp hnd).1 hmem
      subst hab
      have hp₂ : t.Perm t₂ := hp.cons_inv
      have hrec := ih hp₂ (List.sorted_cons.mp hs₁).2 (List.sorted_cons.mp hs₂).2
        (by
          rw [List.map_cons] at hnd
          exact (List.nodup_cons.mp hnd).2)
      rw [hrec]

theorem insertionSort_eq_of_perm {l₁ l₂ : List (String × String)} (hp : l₁.Perm l₂)
    (hnd : (l₁.map Prod.fst).Nodup) :
    List.insertionSort keyLE l₁ = List.insertionSort keyLE l₂ :=
  eq_of_perm_of_sorted_nodupKeys
    ((List.perm_insertionSort keyLE l₁).trans (hp.trans (List.perm_insertionSort keyLE l₂).symm))
    (List.sorted_insertionSort keyLE l₁) (List.sorted_insertionSort keyLE l₂)
    (((List.perm_insertionSort keyLE l₁).map Prod.fst).nodup_iff.mpr hnd)

mutual
theorem permEq_dumps {v w : JsonValue} (h : PermEq v w) (hw : jsonWF v = true) :
    dumps v = dumps w :=
  match v, w, h with
  | _, _, .nullEq => rfl
  | _, _, .boolEq _ => rfl
  | _, _, .numEq _ => rfl
  | _, _, .strEq _ => rfl
  | .arr xs, .arr ys, .arrEq hl => by
      have hwl : jsonWFList xs = true := by simpa [jsonWF] using hw
      simp [dumps, permEqList_dumps hl hwl]
  | .obj kvs, .obj kvs₂, @PermEq.objEq _ mid _ hkv hperm => by
      have hw₂ := hw
      simp only [jsonWF, Bool.and_eq_true, decide_eq_true_eq] at hw₂
      have e₁ : dumpsKVs kvs = dumpsKVs mid := permEqKVs_dumps hkv hw₂.2
      have hmapperm : (dumpsKVs mid).Perm (dumpsKVs kvs₂) := by
        rw [dumpsKVs_eq_map, dumpsKVs_eq_map]
        exact hperm.map _
      have hnd : ((dumpsKVs mid).map Prod.fst).Nodup := by
        rw [← e₁, dumpsKVs_eq_map, List.map_map]
        simpa using hw₂.1
      have e₂ : List.insertionSort keyLE (dumpsKVs mid) =
          List.insertionSort keyLE (dumpsKVs kvs₂) :=
        insertionSort_eq_of_perm hmapperm hnd
      simp [dumps, e₁, e₂]
theorem permEqList_dumps {xs ys : List JsonValue} (h : PermEqList xs ys)
    (hw : jsonWFList xs = true) : dumpsList xs = dumpsList ys :=
  match xs, ys, h with
  | _, _, .nil => rfl
  | x :: xs, y :: ys, .cons hxy ht => by
      have hw₂ := hw
      simp only [jsonWFList, Bool.and_eq_true] at hw₂
      simp [dumpsList, permEq_dumps hxy hw₂.1, permEqList_dumps ht hw₂.2]
theorem permEqKVs_dumps {kvs kvs₁ : List (String × JsonValue)} (h : PermEqKVs kvs kvs₁)
    (hw : jsonWFKVs kvs = true) : dumpsKVs kvs = dumpsKVs kvs₁ :=
  match kvs, kvs₁, h with
  | _, _, .nil => rfl
  | (k, v) :: t, (_, w) :: t₁, .cons hvw ht => by
      have hw₂ := hw
      simp only [jsonWFKVs, Bool.and_eq_true] at hw₂
      simp [dumpsKVs, permEq_dumps hvw hw₂.1, permEqKVs_dumps ht hw₂.2]
end

/-!
Deduplication cache (src/src/utils/deduplication.py).  The SHA-256 digest is
kept as an uninterpreted parameter: every claim about the cache holds for an
arbitrary digest function, and the canonicalization claims only need the
digest to be a function of the serialized string.
-/

/-- DeduplicationCache._generate_fingerprint: digest of the canonical
serialization of the dict with keys event_type and payload. -/
def generate_fingerprint (hash : String → String) (event_type : String)
    (payload : JsonValue) : String :=
  hash (dumps (.obj [("event_type", .str event_type), ("payload", payload)]))

/-- In-memory deduplication cache: window plus the dict
fingerprint -> (event_id, expiry), modelled as an insertion-ordered list
with unique keys (Python dict). -/
structure DeduplicationCache where
  window_seconds : ℚ
  cache : List (String × String × ℚ)

/-- First-match lookup of a fingerprint in the cache dict. -/
def lookupFp (fp : String) : List (String × String × ℚ) → Option (String × ℚ)
  | [] => none
  | e :: t => if e.1 = fp then some e.2 else lookupFp fp t

/-- DeduplicationCache._cleanup_expired: delete every entry whose expiry is
strictly before now. -/
def cleanup_expired (now : ℚ) (cache : List (String × String × ℚ)) :
    List (String × String × ℚ) :=
  cache.filter (fun e => !decide (e.2.2 < now))

/-- DeduplicationCache.check_and_add: sweep expired entries, then return the
stored event_id on a fingerprint hit, else insert
fingerprint -> (event_id, now + window_seconds) and return none. -/
def check_and_add (hash : String → String) (c : DeduplicationCache) (now : ℚ)
    (event_type : String) (payload : JsonValue) (event_id : String) :
    Option String × DeduplicationCache :=
  let cache₁ := cleanup_expired now c.cache
  let fp := generate_fingerprint hash event_type payload
  match lookupFp fp cache₁ with
  | some p => (some p.1, ⟨c.window_seconds, cache₁⟩)
  | none => (none, ⟨c.window_seconds, cache₁ ++ [(fp, event_id, now + c.window_seconds)]⟩)

theorem lookupFp_eq_none_iff {fp : String} {l : List (String × String × ℚ)} :
    lookupFp fp l = none ↔ ∀ e ∈ l, e.1 ≠ fp := by
  induction l with
  | nil => simp [lookupFp]
  | cons e t ih =>
    by_cases h : e.1 = fp
    · simp [lookupFp, h]
    · simp [lookupFp, h, ih]

theorem lookupFp_append_of_none {fp : String} {l₁ l₂ : List (String × String × ℚ)}
    (h : lookupFp fp l₁ = none) : lookupFp fp (l₁ ++ l₂) = lookupFp fp l₂ := by
  induction l₁ with
  | nil => simp
  | cons e t ih =>
    by_cases he : e.1 = fp
    · simp [lookupFp, he] at h
    · simp [lookupFp, he] at h ⊢
      exact ih h

theorem lookupFp_none_of_sublist {fp : String} {l₁ l₂ : List (String × String × ℚ)}
    (hsub : l₁.Sublist l₂) (h : lookupFp fp l₂ = none) : lookupFp fp l₁ = none := by
  rw [lookupFp_eq_none_iff] at h ⊢
  exact fun e he => h e (hsub.mem he)

theorem cleanup_expired_sublist (now : ℚ) (l : List (String × String × ℚ)) :
    (cleanup_expired now l).Sublist l :=
  List.filter_sublist l

theorem mem_cleanup_expired {now : ℚ} {l : List (String × String × ℚ)}
    {e : String × String × ℚ} :
    e ∈ cleanup_expired now l ↔ e ∈ l ∧ ¬ e.2.2 < now := by
  simp [cleanup_expired, List.mem_filter]

/-!
Rate limiter (src/src/middleware/rate_limit.py).  The per-key dict
key_id -> (request_count, window_start_time) is an insertion-ordered
association list; a defaultdict access inserts (0, now) for a missing key.
-/

/-- Error raised by check_rate_limit (src/src/exceptions.py RateLimitError):
message, retry_after seconds, and the details dict. -/
structure RateLimitErrorInfo where
  message : String
  retry_after : ℤ
  limit : ℕ
  window_seconds : ℚ

/-- Python int() applied to a rational: truncation toward zero. -/
def pyInt (q : ℚ) : ℤ := if 0 ≤ q then ⌊q⌋ else ⌈q⌉

/-- Per-key rate-limit state: key_id -> (count, window_start). -/
abbrev RateState := List (String × ℕ × ℚ)

/-- First-match lookup of a key in the rate-limit dict. -/
def lookupKey (k : String) : RateState → Option (ℕ × ℚ)
  | [] => none
  | e :: t => if e.1 = k then some e.2 else lookupKey k t

/-- Dict assignment: replace the first entry for the key in place, append
at the end when the key is absent. -/
def setKey (k : String) (v : ℕ × ℚ) : RateState → RateState
  | [] => [(k, v)]
  | e :: t => if e.1 = k then (k, v) :: t else e :: setKey k v t

/-- RateLimiter._window_seconds: one-minute fixed window. -/
def rl_window_seconds : ℚ := 60

/-- RateLimiter.check_rate_limit.  Returns (none, new_state) when the request
is allowed and (some error, new_state) when RateLimitError is raised (Python
raises, leaving the dict as-is, including the defaultdict insertion that the
state read performed). -/
def check_rate_limit (st : RateState) (now : ℚ) (key_id : String) (limit : ℕ) :
    Option RateLimitErrorInfo × RateState :=
  let entry := lookupKey key_id st
  let st₀ := match entry with
    | some _ => st
    | none => st ++ [(key_id, 0, now)]
  let p := entry.getD (0, now)
  if rl_window_seconds ≤ now - p.2 then
    (none, setKey key_id (1, now) st₀)
  else if limit ≤ p.1 then
    let time_remaining := pyInt (rl_window_seconds - (now - p.2))
    (some ⟨"Rate limit exceeded: " ++ toString limit ++ " requests/minute",
      max 1 time_remaining, limit, rl_window_seconds⟩, st₀)
  else
    (none, setKey key_id (p.1 + 1, p.2) st₀)

/-- Run a sequence of timed calls for one key, stopping at the first
rate-limit rejection (as a client hitting the limit would observe). -/
def runCalls (k : String) (limit : ℕ) : RateState → List ℚ →
    Option RateLimitErrorInfo × RateState
  | st, [] => (none, st)
  | st, t :: ts =>
    match check_rate_limit st t k limit with
    | (none, st₁) => runCalls k limit st₁ ts
    | (some e, st₁) => (some e, st₁)

theorem lookupKey_append_self {k : String} {st : RateState} {v : ℕ × ℚ}
    (h : lookupKey k st = none) : lookupKey k (st ++ [(k, v)]) = some v := by
  induction st with
  | nil => simp [lookupKey]
  | cons e t ih =>
    by_cases he : e.1 = k
    · simp [lookupKey, he] at h
    · simp [lookupKey, he] at h ⊢
      exact ih h

theorem setKey_append_self {k : String} {st : RateState} {v w : ℕ × ℚ}
    (h : lookupKey k st = none) : setKey k v (st ++ [(k, w)]) = st ++ [(k, v)] := by
  induction st with
  | nil => simp [setKey]
  | cons e t ih =>
    by_cases he : e.1 = k
    · simp [lookupKey, he] at h
    · simp [lookupKey, he] at h
      simp [setKey, he, ih h]

/-!
Event store and service layer.  The Event model (src/src/models/event.py),
request/response schemas (src/src/schemas/event.py), the repository
(src/src/repositories/event_repository.py) and the service
(src/src/services/event_service.py) are translated from the source; the
backing DynamoDB table itself is external to the repository and is modelled
from the spec as a key-value store keyed by (event_id, timestamp).
-/

/-- Configuration default settings.event_ttl_days (src/src/config.py). -/
def event_ttl_days : ℤ := 30

/-- Configuration default settings.max_inbox_limit (src/src/config.py). -/
def max_inbox_limit : ℕ := 200

/-- Configuration default settings.deduplication_window_seconds. -/
def deduplication_window_seconds : ℚ := 300

/-- Event model (src/src/models/event.py). -/
structure Event where
  event_id : String
  timestamp : String
  event_type : String
  payload : JsonValue
  source : Option String
  metadata : Option JsonValue
  delivered : Bool
  created_at : String
  updated_at : String
  ttl : Option ℤ

/-- An item as stored in the events table: the Event with the boolean
delivered flag converted to the 0/1 number the GSI requires
(EventRepository.create / _deserialize_event). -/
structure StoredItem where
  event_id : String
  timestamp : String
  event_type : String
  payload : JsonValue
  source : Option String
  metadata : Option JsonValue
  delivered : ℕ
  created_at : String
  updated_at : String
  ttl : Option ℤ

/-- EventRepository.create serialization: delivered becomes 1/0 (None-valued
optional attributes are represented by the Option fields themselves). -/
def serialize_event (e : Event) : StoredItem :=
  ⟨e.event_id, e.timestamp, e.event_type, e.payload, e.source, e.metadata,
    if e.delivered then 1 else 0, e.created_at, e.updated_at, e.ttl⟩

/-- EventRepository._deserialize_event: convert the 0/1 delivered number back
to a boolean. -/
def deserialize_event (item : StoredItem) : Event :=
  ⟨item.event_id, item.timestamp, item.event_type, item.payload, item.source,
    item.metadata, item.delivered ≠ 0, item.created_at, item.updated_at, item.ttl⟩

/-- Point lookup by the composite key (event_id, timestamp). -/
def lookupStore (eid ts : String) : List StoredItem → Option StoredItem
  | [] => none
  | item :: rest =>
    if item.event_id = eid ∧ item.timestamp = ts then some item
    else lookupStore eid ts rest

/-- Replace the record at the composite key (first match) by a new one. -/
def replaceStore (eid ts : String) (v : StoredItem) : List StoredItem → List StoredItem
  | [] => []
  | item :: rest =>
    if item.event_id = eid ∧ item.timestamp = ts then v :: rest
    else item :: replaceStore eid ts v rest

/-- Modelled from the spec: the store's put operation backing
EventRepository.create ("unconditional insert keyed by (event_id,
timestamp)") — the record at the key is overwritten if present, appended
otherwise. -/
def put_item (s : List StoredItem) (item : StoredItem) : List StoredItem :=
  match lookupStore item.event_id item.timestamp s with
  | some _ => replaceStore item.event_id item.timestamp item s
  | none => s ++ [item]

/-- Modelled from the spec: the store's update operation backing
BaseRepository.update_item for the mark-delivered SET expression
(delivered = 1, updated_at = now, ttl = now + retention).  Per spec section
4.3 the store is a key-value store and absence of the record is reported as
an error to the caller, without mutating the store. -/
def updateItemStore (s : List StoredItem) (eid ts : String) (now_iso : String)
    (ttl_val : ℤ) : Except Unit (StoredItem × List StoredItem) :=
  match lookupStore eid ts s with
  | none => Except.error ()
  | some item =>
    let item₁ : StoredItem := ⟨item.event_id, item.timestamp, item.event_type,
      item.payload, item.source, item.metadata, 1, item.created_at, now_iso,
      some ttl_val⟩
    Except.ok (item₁, replaceStore eid ts item₁ s)

/-- EventRepository.mark_delivered: compute the TTL (now + event_ttl_days),
issue the update, deserialize the returned attributes; any failure is caught
and mapped to none. -/
def mark_delivered_repo (s : List StoredItem) (now_epoch : ℤ) (now_iso : String)
    (event_id timestamp : String) : Option Event × List StoredItem :=
  let ttl_timestamp := now_epoch + event_ttl_days * 86400
  match updateItemStore s event_id timestamp now_iso ttl_timestamp with
  | .error _ => (none, s)
  | .ok p => (some (deserialize_event p.1), p.2)

/-- EventService.mark_delivered: true iff the repository returned a record. -/
def mark_delivered_service (s : List StoredItem) (now_epoch : ℤ) (now_iso : String)
    (event_id timestamp : String) : Bool × List StoredItem :=
  let r := mark_delivered_repo s now_epoch now_iso event_id timestamp
  (r.1.isSome, r.2)

/-- CreateEventRequest schema (src/src/schemas/event.py). -/
structure CreateEventRequest where
  event_type : String
  payload : JsonValue
  source : Option String
  metadata : Option JsonValue

/-- EventResponse schema (src/src/schemas/event.py); optional detail fields
default to None. -/
structure EventResponse where
  status : String
  event_id : String
  timestamp : String
  message : String
  event_type : Option String
  payload : Option JsonValue
  source : Option String
  delivered : Option Bool

/-- InboxEventItem schema (src/src/schemas/event.py). -/
structure InboxEventItem where
  event_id : String
  event_type : String
  payload : JsonValue
  timestamp : String
  source : Option String

/-- PaginationMetadata schema (src/src/schemas/event.py). -/
structure PaginationMetadata where
  next_cursor : Option String
  has_more : Bool
  total_undelivered : ℕ

/-- InboxResponse schema (src/src/schemas/event.py). -/
structure InboxResponse where
  events : List InboxEventItem
  pagination : PaginationMetadata

/-- Mutable state owned by EventService: the dedup cache and the store. -/
structure EventServiceState where
  dedup : DeduplicationCache
  store : List StoredItem

/-- EventService.ingest.  The generated uuid4 event_id and the utcnow
timestamp are injected as parameters.  Python tests the dedup result with
truthiness (if existing_id:), so an empty-string stored id would fall
through to the create path, which the embedding reproduces. -/
def ingest (hash : String → String) (st : EventServiceState) (now : ℚ)
    (event_id timestamp : String) (request : CreateEventRequest) :
    EventResponse × EventServiceState :=
  let r := check_and_add hash st.dedup now request.event_type request.payload event_id
  let proceed : EventResponse × EventServiceState :=
    let event : Event := ⟨event_id, timestamp, request.event_type, request.payload,
      request.source, request.metadata, false, timestamp, timestamp, none⟩
    (⟨"accepted", event_id, timestamp, "Event successfully ingested",
        some event.event_type, some event.payload, event.source, some event.delivered⟩,
      ⟨r.2, put_item st.store (serialize_event event)⟩)
  match r.1 with
  | some existing =>
    if existing = "" then proceed
    else
      (⟨"accepted", existing, timestamp,
          "Event successfully ingested (duplicate detected)", none, none, none, none⟩,
        ⟨r.2, st.store⟩)
  | none => proceed

/-- EventService.list_inbox.  The store query (repository.list_undelivered)
and the json.loads cursor decoder are passed as parameters: the embedding of
this operation is independent of their behavior.  An unparseable cursor
(loads returns none) yields last_evaluated_key = none, exactly as the except
branch of the source does. -/
def list_inbox (query : ℕ → Option JsonValue → List Event × Option JsonValue)
    (loads : String → Option JsonValue) (limit : ℕ) (cursor : Option String) :
    InboxResponse :=
  let limit := min (max 1 limit) max_inbox_limit
  let last_evaluated_key : Option JsonValue :=
    match cursor with
    | none => none
    | some s => loads s
  let qr := query limit last_evaluated_key
  let event_items := qr.1.map (fun e =>
    (⟨e.event_id, e.event_type, e.payload, e.timestamp, e.source⟩ : InboxEventItem))
  let next_cursor := qr.2.map dumps
  let total_undelivered : ℕ :=
    match qr.2 with
    | some _ => limit + 1
    | none => qr.1.length
  ⟨event_items, ⟨next_cursor, qr.2.isSome, total_undelivered⟩⟩

theorem lookupStore_replaceStore {eid ts : String} {s : List StoredItem}
    {item v : StoredItem} (h : lookupStore eid ts s = some item)
    (hv : v.event_id = eid ∧ v.timestamp = ts) :
    lookupStore eid ts (replaceStore eid ts v s) = some v := by
  induction s with
  | nil => simp [lookupStore] at h
  | cons it rest ih =>
    by_cases hit : it.event_id = eid ∧ it.timestamp = ts
    · simp [lookupStore, replaceStore, hit, hv]
    · simp [lookupStore, replaceStore, hit] at h ⊢
      exact ih h

/-!
Further helper lemmas shared by the claim theorems.
-/

theorem lookupFp_mem {fp : String} {l : List (String × String × ℚ)} {v : String × ℚ}
    (h : lookupFp fp l = some v) : (fp, v) ∈ l := by
  induction l with
  | nil => simp [lookupFp] at h
  | cons e t ih =>
    by_cases he : e.1 = fp
    · simp [lookupFp, he] at h
      subst h
      have he₂ : (fp, e.2) = e := by
        rw [← he]
      rw [he₂]
      exact List.mem_cons_self _ _
    · simp [lookupFp, he] at h
      exact List.mem_cons_of_mem _ (ih h)

theorem lookupStore_keys {eid ts : String} {s : List StoredItem} {item : StoredItem}
    (h : lookupStore eid ts s = some item) :
    item.event_id = eid ∧ item.timestamp = ts := by
  induction s with
  | nil => simp [lookupStore] at h
  | cons it rest ih =>
    by_cases hit : it.event_id = eid ∧ it.timestamp = ts
    · simp [lookupStore, hit] at h
      subst h
      exact hit
    · simp [lookupStore, hit] at h
      exact ih h

theorem cleanup_expired_append (now : ℚ) (l₁ l₂ : List (String × String × ℚ)) :
    cleanup_expired now (l₁ ++ l₂) = cleanup_expired now l₁ ++ cleanup_expired now l₂ := by
  simp [cleanup_expired, List.filter_append]

/-- C3: for every event_type T and all payloads P and Q that are equal as
JSON objects up to permutation of key order at any nesting depth (P being a
well-formed object with distinct keys at every depth), the deduplication
fingerprint of (T, P) equals the fingerprint of (T, Q): the cache treats
key-order permutations of the same payload as identical content. -/
theorem fingerprint_canonicalization (hash : String → String) (T : String)
    (P Q : JsonValue) (hwf : jsonWF P = true) (h : PermEq P Q) :
    generate_fingerprint hash T P = generate_fingerprint hash T Q := by
  unfold generate_fingerprint
  congr 1
  apply permEq_dumps
  · exact PermEq.objEq
      (PermEqKVs.cons (PermEq.strEq T) (PermEqKVs.cons h PermEqKVs.nil))
      (List.Perm.refl _)
  · simp [jsonWF, jsonWFKVs, hwf]

/-- Witness for C3 at the payload of the spec's concrete scenario, with its
two keys swapped. -/
theorem fingerprint_canonicalization_witness :
    jsonWF (.obj [("user_id", .str "123"), ("email", .str "u@example.com")]) = true ∧
    generate_fingerprint (fun s => s) "user.signup"
        (.obj [("user_id", .str "123"), ("email", .str "u@example.com")]) =
      generate_fingerprint (fun s => s) "user.signup"
        (.obj [("email", .str "u@example.com"), ("user_id", .str "123")]) :=
  have hwf : jsonWF (.obj [("user_id", .str "123"), ("email", .str "u@example.com")]) = true := by
    simp [jsonWF, jsonWFKVs]
  ⟨hwf,
    fingerprint_canonicalization (fun s => s) "user.signup" _ _ hwf
      (PermEq.objEq
        (PermEqKVs.cons (PermEq.strEq "123")
          (PermEqKVs.cons (PermEq.strEq "u@example.com") PermEqKVs.nil))
        (List.Perm.swap ("email", JsonValue.str "u@example.com")
          ("user_id", JsonValue.str "123") []))⟩

theorem check_and_add_second_hit (hash : String → String) (c : DeduplicationCache)
    (now₁ now₂ : ℚ) (T : String) (P : JsonValue) (id1 id2 : String)
    (h1 : (check_and_add hash c now₁ T P id1).1 = none)
    (h2 : now₂ ≤ now₁ + c.window_seconds) :
    (check_and_add hash (check_and_add hash c now₁ T P id1).2 now₂ T P id2).1 = some id1 := by
  cases hlk : lookupFp (generate_fingerprint hash T P) (cleanup_expired now₁ c.cache) with
  | some p => simp [check_and_add, hlk] at h1
  | none =>
    have hsplit : cleanup_expired now₂ (cleanup_expired now₁ c.cache ++
        [(generate_fingerprint hash T P, id1, now₁ + c.window_seconds)]) =
        cleanup_expired now₂ (cleanup_expired now₁ c.cache) ++
          [(generate_fingerprint hash T P, id1, now₁ + c.window_seconds)] := by
      rw [cleanup_expired_append]
      have hkeep : ¬ (now₁ + c.window_seconds < now₂) := not_lt.mpr h2
      simp [cleanup_expired, hkeep]
    have hnone₂ : lookupFp (generate_fingerprint hash T P)
        (cleanup_expired now₂ (cleanup_expired now₁ c.cache)) = none :=
      lookupFp_none_of_sublist (cleanup_expired_sublist _ _) hlk
    simp only [check_and_add, hlk]
    simp only [check_and_add, hsplit]
    rw [lookupFp_append_of_none hnone₂]
    simp [lookupFp]

/-- C1: a first check_and_add that reports a new event (none) followed within
the window by a second check_and_add with the same event_type and payload but
a distinct candidate id returns the original id1, not id2; correspondingly,
ingesting the same content a second time returns a response citing the
original event_id with the duplicate message, and the store is left exactly
as it was after the first ingest (create is never called for the second
request). -/
theorem dedup_idempotence_and_skipped_store_write
    (hash : String → String) (st : EventServiceState) (now₁ now₂ : ℚ)
    (T : String) (P : JsonValue) (id1 id2 ts₁ ts₂ : String)
    (src : Option String) (meta : Option JsonValue)
    (h1 : (check_and_add hash st.dedup now₁ T P id1).1 = none)
    (hpos : 0 < st.dedup.window_seconds)
    (hord : now₁ ≤ now₂)
    (hwin : now₂ ≤ now₁ + st.dedup.window_seconds)
    (hne : id1 ≠ id2) (hid1 : id1 ≠ "") :
    (check_and_add hash (check_and_add hash st.dedup now₁ T P id1).2 now₂ T P id2).1 =
      some id1 ∧
    (check_and_add hash (check_and_add hash st.dedup now₁ T P id1).2 now₂ T P id2).1 ≠
      some id2 ∧
    (ingest hash (ingest hash st now₁ id1 ts₁ ⟨T, P, src, meta⟩).2 now₂ id2 ts₂
        ⟨T, P, src, meta⟩).1.event_id = id1 ∧
    (ingest hash (ingest hash st now₁ id1 ts₁ ⟨T, P, src, meta⟩).2 now₂ id2 ts₂
        ⟨T, P, src, meta⟩).1.message = "Event successfully ingested (duplicate detected)" ∧
    (ingest hash (ingest hash st now₁ id1 ts₁ ⟨T, P, src, meta⟩).2 now₂ id2 ts₂
        ⟨T, P, src, meta⟩).2.store = (ingest hash st now₁ id1 ts₁ ⟨T, P, src, meta⟩).2.store := by
  have hhit := check_and_add_second_hit hash st.dedup now₁ now₂ T P id1 id2 h1 hwin
  refine ⟨hhit, ?_, ?_, ?_, ?_⟩
  · rw [hhit]
    simp [hne]
  · simp [ingest, h1, hhit, hid1]
  · simp [ingest, h1, hhit, hid1]
  · simp [ingest, h1, hhit, hid1]

/-- Witness for C1 at concrete inputs (empty cache and store, identity
digest, the spec's concrete duplicate scenario). -/
theorem dedup_idempotence_witness :
    (check_and_add (fun s => s)
        (check_and_add (fun s => s) ⟨300, []⟩ 0 "user.signup"
          (.obj [("user_id", .str "123")]) "id-1").2 1 "user.signup"
        (.obj [("user_id", .str "123")]) "id-2").1 = some "id-1" ∧
    (check_and_add (fun s => s)
        (check_and_add (fun s => s) ⟨300, []⟩ 0 "user.signup"
          (.obj [("user_id", .str "123")]) "id-1").2 1 "user.signup"
        (.obj [("user_id", .str "123")]) "id-2").1 ≠ some "id-2" ∧
    (ingest (fun s => s)
        (ingest (fun s => s) ⟨⟨300, []⟩, []⟩ 0 "id-1" "t1"
          ⟨"user.signup", .obj [("user_id", .str "123")], none, none⟩).2 1 "id-2" "t2"
        ⟨"user.signup", .obj [("user_id", .str "123")], none, none⟩).1.event_id = "id-1" ∧
    (ingest (fun s => s)
        (ingest (fun s => s) ⟨⟨300, []⟩, []⟩ 0 "id-1" "t1"
          ⟨"user.signup", .obj [("user_id", .str "123")], none, none⟩).2 1 "id-2" "t2"
        ⟨"user.signup", .obj [("user_id", .str "123")], none, none⟩).1.message =
      "Event successfully ingested (duplicate detected)" ∧
    (ingest (fun s => s)
        (ingest (fun s => s) ⟨⟨300, []⟩, []⟩ 0 "id-1" "t1"
          ⟨"user.signup", .obj [("user_id", .str "123")], none, none⟩).2 1 "id-2" "t2"
        ⟨"user.signup", .obj [("user_id", .str "123")], none, none⟩).2.store =
      (ingest (fun s => s) ⟨⟨300, []⟩, []⟩ 0 "id-1" "t1"
        ⟨"user.signup", .obj [("user_id", .str "123")], none, none⟩).2.store :=
  dedup_idempotence_and_skipped_store_write (fun s => s) ⟨⟨300, []⟩, []⟩ 0 1
    "user.signup" (.obj [("user_id", .str "123")]) "id-1" "id-2" "t1" "t2" none none
    rfl (by norm_num) (by norm_num) (by norm_num) (by decide) (by decide)

/-- C7: once the window has fully elapsed (the call happens strictly after
insertion time t plus window_seconds), a check_and_add with the same content
no longer reports a duplicate: it returns none and inserts a fresh entry
mapping the fingerprint to id2 with expiry now + window_seconds. -/
theorem dedup_expiry (hash : String → String) (c : DeduplicationCache)
    (t now : ℚ) (T : String) (P : JsonValue) (id1 id2 : String)
    (h1 : (check_and_add hash c t T P id1).1 = none)
    (hexp : t + c.window_seconds < now) :
    (check_and_add hash (check_and_add hash c t T P id1).2 now T P id2).1 = none ∧
    lookupFp (generate_fingerprint hash T P)
        ((check_and_add hash (check_and_add hash c t T P id1).2 now T P id2).2).cache =
      some (id2, now + c.window_seconds) := by
  cases hlk : lookupFp (generate_fingerprint hash T P) (cleanup_expired t c.cache) with
  | some p => simp [check_and_add, hlk] at h1
  | none =>
    have hsplit : cleanup_expired now (cleanup_expired t c.cache ++
        [(generate_fingerprint hash T P, id1, t + c.window_seconds)]) =
        cleanup_expired now (cleanup_expired t c.cache) := by
      rw [cleanup_expired_append]
      simp [cleanup_expired, hexp]
    have hnone₂ : lookupFp (generate_fingerprint hash T P)
        (cleanup_expired now (cleanup_expired t c.cache)) = none :=
      lookupFp_none_of_sublist (cleanup_expired_sublist _ _) hlk
    constructor
    · simp only [check_and_add, hlk]
      simp only [check_and_add, hsplit]
      simp [hnone₂]
    · simp only [check_and_add, hlk]
      simp only [check_and_add, hsplit, hnone₂]
      rw [lookupFp_append_of_none hnone₂]
      simp [lookupFp]

/-- Witness for C7: an entry inserted at time 0 with a 300-second window is
no longer a duplicate at time 301, and the fingerprint is remapped to the
new candidate id. -/
theorem dedup_expiry_witness :
    (check_and_add (fun s => s)
        (check_and_add (fun s => s) ⟨300, []⟩ 0 "test.event"
          (.obj [("data", .str "test")]) "event-1").2 301 "test.event"
        (.obj [("data", .str "test")]) "event-2").1 = none ∧
    lookupFp (generate_fingerprint (fun s => s) "test.event" (.obj [("data", .str "test")]))
        ((check_and_add (fun s => s)
          (check_and_add (fun s => s) ⟨300, []⟩ 0 "test.event"
            (.obj [("data", .str "test")]) "event-1").2 301 "test.event"
          (.obj [("data", .str "test")]) "event-2").2).cache =
      some ("event-2", 301 + 300) :=
  dedup_expiry (fun s => s) ⟨300, []⟩ 0 301 "test.event"
    (.obj [("data", .str "test")]) "event-1" "event-2" rfl (by norm_num)

/-- C10: after any check_and_add performed at time now (with a nonnegative
window), every entry remaining in the cache has expiry at least now, and a
duplicate can only be reported from an entry of the swept cache whose expiry
is at least now: an entry expiring strictly before the call can neither be
returned nor survive. -/
theorem cache_freshness (hash : String → String) (c : DeduplicationCache)
    (now : ℚ) (T : String) (P : JsonValue) (id : String)
    (hw : 0 ≤ c.window_seconds) :
    (∀ e ∈ ((check_and_add hash c now T P id).2).cache, now ≤ e.2.2) ∧
    (∀ rid, (check_and_add hash c now T P id).1 = some rid →
      ∃ v, lookupFp (generate_fingerprint hash T P) (cleanup_expired now c.cache) =
          some v ∧ v.1 = rid ∧ now ≤ v.2) := by
  cases hlk : lookupFp (generate_fingerprint hash T P) (cleanup_expired now c.cache) with
  | some p =>
    constructor
    · intro e he
      simp only [check_and_add, hlk] at he
      exact not_lt.mp (mem_cleanup_expired.mp he).2
    · intro rid hr
      simp only [check_and_add, hlk, Option.some.injEq] at hr
      refine ⟨p, rfl, hr, ?_⟩
      have hm := lookupFp_mem hlk
      exact not_lt.mp (mem_cleanup_expired.mp hm).2
  | none =>
    constructor
    · intro e he
      simp only [check_and_add, hlk] at he
      rw [List.mem_append] at he
      rcases he with he | he
      · exact not_lt.mp (mem_cleanup_expired.mp he).2
      · simp only [List.mem_singleton] at he
        subst he
        simpa using by linarith
    · intro rid hr
      simp [check_and_add, hlk] at hr

/-- Witness for C10 on a concrete call over a cache holding one live and one
expired entry. -/
theorem cache_freshness_witness :
    (0 : ℚ) ≤ (⟨300, [("f1", "a", 50), ("f2", "b", 5)]⟩ : DeduplicationCache).window_seconds ∧
    ((∀ e ∈ ((check_and_add (fun s => s) ⟨300, [("f1", "a", 50), ("f2", "b", 5)]⟩ 10
        "t" (.obj []) "i").2).cache, (10 : ℚ) ≤ e.2.2) ∧
      (∀ rid, (check_and_add (fun s => s) ⟨300, [("f1", "a", 50), ("f2", "b", 5)]⟩ 10
          "t" (.obj []) "i").1 = some rid →
        ∃ v, lookupFp (generate_fingerprint (fun s => s) "t" (.obj []))
            (cleanup_expired 10 [("f1", "a", 50), ("f2", "b", 5)]) =
          some v ∧ v.1 = rid ∧ (10 : ℚ) ≤ v.2)) :=
  ⟨by norm_num,
    cache_freshness (fun s => s) ⟨300, [("f1", "a", 50), ("f2", "b", 5)]⟩ 10
      "t" (.obj []) "i" (by norm_num)⟩

theorem runCalls_increments (k : String) (N : ℕ) (t₁ : ℚ) :
    ∀ (rest : List ℚ) (st : RateState) (c : ℕ),
      lookupKey k st = none →
      (∀ t ∈ rest, t - t₁ < 60) →
      c + rest.length ≤ N →
      runCalls k N (st ++ [(k, c, t₁)]) rest = (none, st ++ [(k, c + rest.length, t₁)]) := by
  intro rest
  induction rest with
  | nil =>
    intro st c _ _ _
    simp [runCalls]
  | cons t ts ih =>
    intro st c hfresh hwin hle
    have hlk : lookupKey k (st ++ [(k, c, t₁)]) = some (c, t₁) :=
      lookupKey_append_self hfresh
    have hnr : ¬ rl_window_seconds ≤ t - t₁ := by
      have := hwin t (List.mem_cons_self t ts)
      simp only [rl_window_seconds]
      linarith
    have hcnt : ¬ N ≤ c := by
      simp only [List.length_cons] at hle
      omega
    have hstep : check_rate_limit (st ++ [(k, c, t₁)]) t k N =
        (none, st ++ [(k, c + 1, t₁)]) := by
      simp only [check_rate_limit, hlk]
      simp [hnr, hcnt, setKey_append_self hfresh]
    have hrest := ih st (c + 1) hfresh (fun u hu => hwin u (List.mem_cons_of_mem t hu))
      (by simp only [List.length_cons] at hle; omega)
    rw [runCalls, hstep]
    show runCalls k N (st ++ [(k, c + 1, t₁)]) ts = _
    rw [hrest]
    have harith : c + 1 + ts.length = c + (t :: ts).length := by
      simp only [List.length_cons]
      omega
    rw [harith]

/-- C2: for a fresh key and limit N (= rest.length + 1 ≥ 1), with every call
falling within 60 seconds of the first call's window start t₁, all N calls
succeed (leaving count = N), and the (N+1)-th call fails with
retry_after = max(1, int(60 - (now - window_start))) ≥ 1 (the source applies
Python int() truncation to the remaining time) and does not change the
stored count. -/
theorem rate_limiter_boundary (k : String) (N : ℕ) (t₁ : ℚ) (rest : List ℚ)
    (t_fail : ℚ) (st : RateState)
    (hfresh : lookupKey k st = none)
    (hN : rest.length + 1 = N)
    (hwin : ∀ t ∈ rest, t - t₁ < 60)
    (hfailwin : t_fail - t₁ < 60) :
    runCalls k N st (t₁ :: rest) = (none, st ++ [(k, N, t₁)]) ∧
    ∃ err, check_rate_limit (st ++ [(k, N, t₁)]) t_fail k N =
        (some err, st ++ [(k, N, t₁)]) ∧
      err.retry_after = max 1 (pyInt (60 - (t_fail - t₁))) ∧ 1 ≤ err.retry_after := by
  constructor
  · have hfirst : check_rate_limit st t₁ k N = (none, st ++ [(k, 1, t₁)]) := by
      simp only [check_rate_limit, hfresh]
      have h0 : ¬ rl_window_seconds ≤ t₁ - t₁ := by
        simp [rl_window_seconds]
      have hN0 : ¬ N ≤ 0 := by omega
      simp [h0, hN0, setKey_append_self hfresh]
    have hruns := runCalls_increments k N t₁ rest st 1 hfresh hwin (by omega)
    rw [runCalls, hfirst]
    show runCalls k N (st ++ [(k, 1, t₁)]) rest = _
    rw [hruns]
    have harith : 1 + rest.length = N := by omega
    rw [harith]
  · have hlk : lookupKey k (st ++ [(k, N, t₁)]) = some (N, t₁) :=
      lookupKey_append_self hfresh
    have hnr : ¬ rl_window_seconds ≤ t_fail - t₁ := by
      simp only [rl_window_seconds]
      linarith
    refine ⟨⟨"Rate limit exceeded: " ++ toString N ++ " requests/minute",
      max 1 (pyInt (rl_window_seconds - (t_fail - t₁))), N, rl_window_seconds⟩, ?_, ?_, ?_⟩
    · simp only [check_rate_limit, hlk]
      simp [hnr]
    · simp [rl_window_seconds]
    · exact le_max_left 1 _

/-- Witness for C2 with limit 2: two calls at times 0 and 1 succeed, the
third call at time 2 is rejected with retry_after 58 and an unchanged count. -/
theorem rate_limiter_boundary_witness :
    runCalls "key-1" 2 [] ((0 : ℚ) :: [1]) = (none, [] ++ [("key-1", 2, (0 : ℚ))]) ∧
    ∃ err, check_rate_limit ([] ++ [("key-1", 2, (0 : ℚ))]) 2 "key-1" 2 =
        (some err, [] ++ [("key-1", 2, (0 : ℚ))]) ∧
      err.retry_after = max 1 (pyInt (60 - ((2 : ℚ) - 0))) ∧ 1 ≤ err.retry_after :=
  rate_limiter_boundary "key-1" 2 0 [1] 2 [] rfl rfl (by norm_num) (by norm_num)

/-- C9: the window-reset branch never consults the limit — any key whose
stored window started at least 60 seconds ago is reset to (1, now) and
let through, for every limit including 0 — and the very first call for a
never-seen key is allowed whenever the limit is at least 1, leaving
(1, now). -/
theorem window_reset_ignores_limit :
    (∀ (st : RateState) (k : String) (c : ℕ) (ws now : ℚ) (limit : ℕ),
      lookupKey k st = some (c, ws) → 60 ≤ now - ws →
      check_rate_limit st now k limit = (none, setKey k (1, now) st)) ∧
    (∀ (st : RateState) (k : String) (now : ℚ) (limit : ℕ),
      lookupKey k st = none → 1 ≤ limit →
      check_rate_limit st now k limit = (none, st ++ [(k, 1, now)])) := by
  constructor
  · intro st k c ws now limit hlk hreset
    simp only [check_rate_limit, hlk]
    simp [rl_window_seconds, hreset]
  · intro st k now limit hlk hlim
    simp only [check_rate_limit, hlk]
    have h0 : ¬ rl_window_seconds ≤ now - now := by
      simp [rl_window_seconds]
    have hN0 : ¬ limit ≤ 0 := by omega
    simp [h0, hN0, setKey_append_self hlk]

/-- Witness for C9: a stale window with count 7 and limit 0 is reset and
allowed at time 100; a fresh key with limit 1 is allowed at time 5. -/
theorem window_reset_ignores_limit_witness :
    check_rate_limit [("k", 7, 10)] 100 "k" 0 = (none, setKey "k" (1, 100) [("k", 7, 10)]) ∧
    check_rate_limit [] 5 "fresh" 1 = (none, [] ++ [("fresh", 1, 5)]) :=
  ⟨window_reset_ignores_limit.1 [("k", 7, 10)] "k" 7 10 100 0 rfl (by norm_num),
    window_reset_ignores_limit.2 [] "fresh" 5 1 rfl (by norm_num)⟩

/-- Counterexample to C5: with stored entry ("k", count 3, window_start 100)
and the clock at 50 (elapsed = -50, negative), a call with limit 3 is NOT
treated as an expired window: the claim predicts a reset to (1, 50) and an
allowed request, but the code takes the within-window branch, raises
RateLimitError, and leaves the entry at (3, 100). -/
theorem clock_skew_counterexample :
    (check_rate_limit [("k", 3, 100)] 50 "k" 3).1.isSome = true ∧
    (check_rate_limit [("k", 3, 100)] 50 "k" 3).2 = [("k", 3, 100)] ∧
    (check_rate_limit [("k", 3, 100)] 50 "k" 3).2 ≠ setKey "k" (1, 50) [("k", 3, 100)] := by
  have h2 : (check_rate_limit [("k", 3, 100)] 50 "k" 3).2 = [("k", 3, 100)] := by
    simp only [check_rate_limit, lookupKey]
    norm_num [rl_window_seconds]
  refine ⟨?_, h2, ?_⟩
  · simp only [check_rate_limit, lookupKey]
    norm_num [rl_window_seconds]
  · rw [h2]
    simp [setKey]

/-- C5 as amended: when the elapsed time now - window_start is negative, the
limiter does not reset the window and does not crash; the request is handled
by the within-window branch — the count is incremented (window_start kept)
when count < limit, and the request is rejected with the state unchanged
when count >= limit.  A reset happens only when now - window_start >= 60.
(NaN does not arise in the rational-time model.) -/
theorem clock_skew_within_window (st : RateState) (k : String) (c : ℕ)
    (ws now : ℚ) (limit : ℕ)
    (hlk : lookupKey k st = some (c, ws)) (hneg : now - ws < 0) :
    (c < limit → check_rate_limit st now k limit = (none, setKey k (c + 1, ws) st)) ∧
    (limit ≤ c → (check_rate_limit st now k limit).1.isSome = true ∧
      (check_rate_limit st now k limit).2 = st) := by
  have hnr : ¬ rl_window_seconds ≤ now - ws := by
    simp only [rl_window_seconds]
    linarith
  constructor
  · intro hlt
    have hcnt : ¬ limit ≤ c := by omega
    simp only [check_rate_limit, hlk]
    simp [hnr, hcnt]
  · intro hge
    simp only [check_rate_limit, hlk]
    simp [hnr, hge]

/-- Witness for the amended C5 at entry (0, 100), clock 50, limit 5. -/
theorem clock_skew_within_window_witness :
    ((0 : ℕ) < 5 → check_rate_limit [("k", 0, 100)] 50 "k" 5 =
      (none, setKey "k" (0 + 1, 100) [("k", 0, 100)])) ∧
    (5 ≤ (0 : ℕ) → (check_rate_limit [("k", 0, 100)] 50 "k" 5).1.isSome = true ∧
      (check_rate_limit [("k", 0, 100)] 50 "k" 5).2 = [("k", 0, 100)]) :=
  clock_skew_within_window [("k", 0, 100)] "k" 0 100 50 5 rfl (by norm_num)

/-- C4: marking a record that is not in the store as delivered returns none
(the service maps it to false) and leaves the store exactly as it was: no
record is created for that key. -/
theorem mark_delivered_absent (s : List StoredItem) (now_epoch : ℤ)
    (now_iso : String) (eid ts : String)
    (h : lookupStore eid ts s = none) :
    mark_delivered_repo s now_epoch now_iso eid ts = (none, s) ∧
    mark_delivered_service s now_epoch now_iso eid ts = (false, s) := by
  constructor
  · simp [mark_delivered_repo, updateItemStore, h]
  · simp [mark_delivered_service, mark_delivered_repo, updateItemStore, h]

/-- Witness for C4 on the empty store. -/
theorem mark_delivered_absent_witness :
    mark_delivered_repo [] 1000 "2025-11-11T12:00:00Z" "nonexistent-id"
      "2025-11-11T12:00:00Z" = (none, []) ∧
    mark_delivered_service [] 1000 "2025-11-11T12:00:00Z" "nonexistent-id"
      "2025-11-11T12:00:00Z" = (false, []) :=
  mark_delivered_absent [] 1000 "2025-11-11T12:00:00Z" "nonexistent-id"
    "2025-11-11T12:00:00Z" rfl

/-- C8: for an existing record, mark_delivered succeeds twice in a row: both
calls return a record with delivered = true (the service reports success both
times), and after the second call the stored record still has its delivered
flag set to 1. -/
theorem mark_delivered_repo_eq (s : List StoredItem) (item : StoredItem)
    (n : ℤ) (i : String) (eid ts : String)
    (hl : lookupStore eid ts s = some item) :
    mark_delivered_repo s n i eid ts =
      (some (deserialize_event ⟨item.event_id, item.timestamp, item.event_type,
          item.payload, item.source, item.metadata, 1, item.created_at, i,
          some (n + event_ttl_days * 86400)⟩),
        replaceStore eid ts ⟨item.event_id, item.timestamp, item.event_type,
          item.payload, item.source, item.metadata, 1, item.created_at, i,
          some (n + event_ttl_days * 86400)⟩ s) := by
  simp [mark_delivered_repo, updateItemStore, hl]

theorem acknowledge_idempotent (s : List StoredItem) (item : StoredItem)
    (n₁ n₂ : ℤ) (i₁ i₂ : String) (eid ts : String)
    (hl : lookupStore eid ts s = some item) :
    (∃ e₁, (mark_delivered_repo s n₁ i₁ eid ts).1 = some e₁ ∧ e₁.delivered = true) ∧
    (∃ e₂, (mark_delivered_repo (mark_delivered_repo s n₁ i₁ eid ts).2 n₂ i₂ eid
        ts).1 = some e₂ ∧ e₂.delivered = true) ∧
    (mark_delivered_service s n₁ i₁ eid ts).1 = true ∧
    (mark_delivered_service (mark_delivered_service s n₁ i₁ eid ts).2 n₂ i₂ eid
      ts).1 = true ∧
    (∃ it, lookupStore eid ts
        (mark_delivered_repo (mark_delivered_repo s n₁ i₁ eid ts).2 n₂ i₂ eid ts).2 =
      some it ∧ it.delivered = 1) := by
  have hkeys := lookupStore_keys hl
  have h₁ := mark_delivered_repo_eq s item n₁ i₁ eid ts hl
  have hlook₂ : lookupStore eid ts (replaceStore eid ts ⟨item.event_id,
      item.timestamp, item.event_type, item.payload, item.source, item.metadata,
      1, item.created_at, i₁, some (n₁ + event_ttl_days * 86400)⟩ s) =
      some ⟨item.event_id, item.timestamp, item.event_type, item.payload,
        item.source, item.metadata, 1, item.created_at, i₁,
        some (n₁ + event_ttl_days * 86400)⟩ :=
    lookupStore_replaceStore hl ⟨hkeys.1, hkeys.2⟩
  have h₂ := mark_delivered_repo_eq _ _ n₂ i₂ eid ts hlook₂
  refine ⟨⟨_, by rw [h₁], by simp [deserialize_event]⟩, ?_, ?_, ?_, ?_⟩
  · simp only [h₁]
    rw [h₂]
    exact ⟨_, rfl, by simp [deserialize_event]⟩
  · simp [mark_delivered_service, h₁]
  · simp only [mark_delivered_service, h₁]
    simp only [h₂]
    rfl
  · simp only [h₁]
    rw [h₂]
    exact ⟨_, lookupStore_replaceStore hlook₂ ⟨hkeys.1, hkeys.2⟩, rfl⟩

/-- Witness for C8 on a one-record store. -/
theorem acknowledge_idempotent_witness :
    (∃ e₁, (mark_delivered_repo
        [⟨"e1", "t1", "user.signup", .obj [], none, none, 0, "c", "u", none⟩]
        100 "u1" "e1" "t1").1 = some e₁ ∧ e₁.delivered = true) ∧
    (∃ e₂, (mark_delivered_repo (mark_delivered_repo
        [⟨"e1", "t1", "user.signup", .obj [], none, none, 0, "c", "u", none⟩]
        100 "u1" "e1" "t1").2 200 "u2" "e1" "t1").1 = some e₂ ∧ e₂.delivered = true) ∧
    (mark_delivered_service
        [⟨"e1", "t1", "user.signup", .obj [], none, none, 0, "c", "u", none⟩]
        100 "u1" "e1" "t1").1 = true ∧
    (mark_delivered_service (mark_delivered_service
        [⟨"e1", "t1", "user.signup", .obj [], none, none, 0, "c", "u", none⟩]
        100 "u1" "e1" "t1").2 200 "u2" "e1" "t1").1 = true ∧
    (∃ it, lookupStore "e1" "t1"
        (mark_delivered_repo (mark_delivered_repo
          [⟨"e1", "t1", "user.signup", .obj [], none, none, 0, "c", "u", none⟩]
          100 "u1" "e1" "t1").2 200 "u2" "e1" "t1").2 = some it ∧ it.delivered = 1) :=
  acknowledge_idempotent
    [⟨"e1", "t1", "user.signup", .obj [], none, none, 0, "c", "u", none⟩]
    ⟨"e1", "t1", "user.signup", .obj [], none, none, 0, "c", "u", none⟩
    100 200 "u1" "u2" "e1" "t1" rfl

/-- C6: a cursor string the json decoder cannot parse makes list_inbox behave
exactly as if no cursor had been supplied: the same query from the beginning
of the undelivered index and the same page, for every store-query behavior. -/
theorem invalid_cursor_tolerance
    (query : ℕ → Option JsonValue → List Event × Option JsonValue)
    (loads : String → Option JsonValue) (limit : ℕ) (s : String)
    (h : loads s = none) :
    list_inbox query loads limit (some s) = list_inbox query loads limit none := by
  simp [list_inbox, h]

/-- Witness for C6 with the cursor string of the spec's test scenario. -/
theorem invalid_cursor_tolerance_witness :
    ((fun _ => none : String → Option JsonValue) "not-json" = none) ∧
    list_inbox (fun _ _ => ([], none)) (fun _ => none) 50 (some "not-json") =
      list_inbox (fun _ _ => ([], none)) (fun _ => none) 50 none :=
  ⟨rfl, invalid_cursor_tolerance (fun _ _ => ([], none)) (fun _ => none) 50 "not-json" rfl⟩
